import Mathlib

/-!
Verification development for the rlox tree-walking interpreter.

The Rust sources are shallowly embedded: pure functions become Lean
functions, the `Rc<RefCell<Environment>>` graph becomes an explicit heap
(a list of environment nodes addressed by index), `f64` numbers are
modelled as `Rat` (no claim below depends on floating-point rounding or
formatting), and possibly diverging recursion (the tree walk, the
recursive-descent parser, the lexer's skip loops) is driven by explicit
fuel; running out of fuel is a distinguished `stuck` outcome, never
confused with a value or an error of the interpreted program.
-/

namespace Rlox

/-! ## Tokens (src/lexer/mod.rs) -/

/-- The `TokenKind` from src/lexer/mod.rs.  Keyword constructors carry a `k`
to avoid Lean keywords; `number` carries a `Rat` in place of `f64`. -/
inductive TokenKind where
  | leftParen | rightParen | leftBrace | rightBrace
  | comma | dot | minus | plus | semicolon | slash | star
  | bang | ne | eq | eqEq | gt | ge | lt | le
  | identifier (s : String)
  | string (s : String)
  | number (n : Rat)
  | kAnd | kClass | kElse | kFalse | kFun | kFor | kIf | kNil
  | kOr | kPrint | kReturn | kSuper | kThis | kTrue | kVar | kWhile
  | whitespace | unknown | eof
  deriving DecidableEq, Repr

/-- The `Token` from src/lexer/mod.rs: `{ value, length, lexeme }`. -/
structure Token where
  value : TokenKind
  length : Nat
  lexeme : String
  deriving DecidableEq, Repr

/-! ## AST operators (src/ast/expr.rs) -/

/-- The `BinOp` from src/ast/expr.rs. -/
inductive BinOp where
  | plus | minus | multiply | divide | eq | gt | lt | ge | le | eqEq | ne
  deriving DecidableEq, Repr

/-- The `UnOp` from src/ast/expr.rs. -/
inductive UnOp where
  | binNeg | logNeg
  deriving DecidableEq, Repr

/-- The `LogOp` from src/ast/expr.rs. -/
inductive LogOp where
  | and | or
  deriving DecidableEq, Repr

/-! ## Literals, callables, expressions, statements
(src/ast/expr.rs, src/ast/stmt.rs, src/interpreter/callable.rs)

`Literal` doubles as the runtime value type in the source, so it embeds
callables, whose user-function variant carries the statements of its
body and the heap address of its captured closure environment
(`Rc<RefCell<Environment>>` in Rust, an index into the explicit heap
here).  The native variant is `Clock` — the only `Box<dyn Callable>`
in the program. -/

/-- The one native callable, `Clock` from src/interpreter/callable.rs. -/
inductive NativeFn where
  | clock
  deriving DecidableEq, Repr

mutual

/-- The `Literal` from src/ast/expr.rs (`f64` modelled as `Rat`). -/
inductive Literal where
  | string (s : String)
  | number (n : Rat)
  | bool (b : Bool)
  | callable (c : LoxCallable)
  | nil

/-- The `LoxCallable` from src/interpreter/callable.rs.  `function` inlines
the `LoxFunction` record `{name, params, body, closure}`; the closure is
a heap address. -/
inductive LoxCallable where
  | function (name : String) (params : List Token) (body : List Stmt) (closure : Nat)
  | other (f : NativeFn)

/-- The `ExprKind` from src/ast/expr.rs (`Variable` renamed `var`: Lean
keyword). -/
inductive ExprKind where
  | binary (op : BinOp) (lhs rhs : Expr)
  | call (callee : Expr) (args : List Expr)
  | grouping (e : Expr)
  | literal (l : Literal)
  | logical (op : LogOp) (lhs rhs : Expr)
  | unary (op : UnOp) (e : Expr)
  | var (name : Token)
  | assign (name : Token) (value : Expr)

/-- The `Expr` from src/ast/expr.rs: a struct holding one `ExprKind`. -/
inductive Expr where
  | mk (kind : ExprKind)

/-- The `Stmt` from src/ast/stmt.rs (`If`/`While`/`Return` renamed with an
`s` to avoid Lean keywords). -/
inductive Stmt where
  | expression (e : Expr)
  | print (e : Expr)
  | var (name : Token) (initializer : Option Expr)
  | block (stmts : List Stmt)
  | sIf (condition : Expr) (thenBranch : Stmt) (elseBranch : Option Stmt)
  | sWhile (condition : Expr) (body : Stmt)
  | function (name : Token) (params : List Token) (body : List Stmt)
  | sReturn (keyword : Token) (value : Option Expr)

end

/-- Field accessor mirroring `Expr { kind }`. -/
def Expr.kind : Expr → ExprKind
  | .mk k => k

/-- The `impl Display for Literal` (src/ast/expr.rs lines 137-151): note the
`String` arm formats with surrounding double quotes, and a callable
prints as the fixed word `callable`.  (`n.to_string()` on `f64` is
modelled by `Rat`'s `toString`; no claim depends on number formatting.) -/
def Literal.display : Literal → String
  | .string s => "\"" ++ s ++ "\""
  | .number n => toString n
  | .bool b => if b then "true" else "false"
  | .callable _ => "callable"
  | .nil => "nil"

/-- The `is_truthy` (src/interpreter/interpreter.rs lines 289-295). -/
def isTruthy : Literal → Bool
  | .nil => false
  | .bool b => b
  | _ => true

/-- The `is_equal` (src/interpreter/interpreter.rs lines 297-305).  Every
pair not matched by the listed arms — in particular any pair with a
callable on either side — falls to the `_ => false` arm. -/
def isEqual : Literal → Literal → Bool
  | .nil, .nil => true
  | .number n1, .number n2 => n1 == n2
  | .string s1, .string s2 => s1 == s2
  | .bool b1, .bool b2 => b1 == b2
  | _, _ => false

/-- The `arity` of a callable:  `LoxFunction::arity` is `params.len()`,
`Clock::arity` is `0` (src/interpreter/callable.rs). -/
def LoxCallable.arity : LoxCallable → Nat
  | .function _ params _ _ => params.length
  | .other .clock => 0

/-! ## Association-list model of `HashMap<String, Literal>`

`insert` replaces the value of an existing key in place (first
occurrence) or appends a fresh pair; lookup takes the first match.
Under that discipline keys stay unique, matching hash-map semantics. -/

/-- The `HashMap::get`, first match wins. -/
def lookupAssoc : List (String × Literal) → String → Option Literal
  | [], _ => none
  | (k, v) :: rest, name => if k = name then some v else lookupAssoc rest name

/-- The `HashMap::contains_key`. -/
def containsKey (l : List (String × Literal)) (name : String) : Bool :=
  (lookupAssoc l name).isSome

/-- The `HashMap::insert`: replace in place or append. -/
def insertAssoc : List (String × Literal) → String → Literal → List (String × Literal)
  | [], name, v => [(name, v)]
  | (k, w) :: rest, name, v =>
      if k = name then (k, v) :: rest else (k, w) :: insertAssoc rest name v

/-- The keys of a scope, in order. -/
def keysOf (l : List (String × Literal)) : List String := l.map Prod.fst

/-! ## Environment chain (src/environment.rs)

For the environment-local claim the chain is modelled directly as the
recursive structure of src/environment.rs: a scope's map plus an
optional enclosing environment. -/

/-- The `Environment` from src/environment.rs: `values` map and optional
`enclosing` link. -/
inductive Env where
  | mk (values : List (String × Literal)) (enclosing : Option Env)

/-- The scope's own map. -/
def Env.values : Env → List (String × Literal)
  | .mk vs _ => vs

/-- The enclosing link. -/
def Env.enclosing : Env → Option Env
  | .mk _ e => e

/-- The `Environment::define` (src/environment.rs line 26): unconditional
insert into this scope. -/
def Env.define : Env → String → Literal → Env
  | .mk vs enc, name, v => .mk (insertAssoc vs name v) enc

/-- The `Environment::assign` (src/environment.rs lines 30-41): update here
if present, else recurse into the enclosing scope, else fail.  On
failure no environment is produced, mirroring that the Rust code leaves
every scope untouched. -/
def Env.assign : Env → String → Literal → Except String Env
  | .mk vs enc, name, v =>
      if containsKey vs name then
        .ok (.mk (insertAssoc vs name v) enc)
      else
        match enc with
        | some e =>
            match e.assign name v with
            | .ok e2 => .ok (.mk vs (some e2))
            | .error msg => .error msg
        | none => .error ("Undefined variable '" ++ name ++ "'.")

/-- The `Environment::get` (src/environment.rs lines 43-51). -/
def Env.get : Env → String → Except String Literal
  | .mk vs enc, name =>
      match lookupAssoc vs name with
      | some v => .ok v
      | none =>
          match enc with
          | some e => e.get name
          | none => .error ("Undefined variable '" ++ name ++ "'.")

/-- Whether any scope of the chain binds `name`. -/
def Env.chainContains : Env → String → Bool
  | .mk vs enc, name =>
      containsKey vs name ||
        match enc with
        | some e => e.chainContains name
        | none => false

/-- Nearest-scope update, written after the specification's words:
starting at the current scope and walking enclosing links, update the
binding in the first scope that already contains `name`; touch nothing
else, and create nothing when `name` is absent everywhere. -/
def assignNearest : Env → String → Literal → Env
  | .mk vs enc, name, v =>
      if containsKey vs name then .mk (insertAssoc vs name v) enc
      else
        match enc with
        | some e => .mk vs (some (assignNearest e name v))
        | none => .mk vs none

/-- The per-scope key lists of a whole chain, innermost first. -/
def Env.scopeKeys : Env → List (List String)
  | .mk vs enc =>
      keysOf vs ::
        match enc with
        | some e => e.scopeKeys
        | none => []

/-! ## The interpreter's heap of shared environments

`Rc<RefCell<Environment>>` values are shared and mutated in place, so
the interpreter is embedded against an explicit heap: a list of
environment nodes addressed by index, with `enclosing` a heap address.
Nodes are only ever appended, so an `enclosing` link always points to an
older (smaller) address and chains cannot cycle. -/

/-- One heap-allocated `Environment`. -/
structure EnvNode where
  values : List (String × Literal)
  enclosing : Option Nat

/-- Interpreter state: the heap, the evaluator's `environment` pointer
(`current`), the `globals` pointer, the text printed so far to stdout
and stderr, and the value the `clock` native would read (`SystemTime`
is outside the embedding; it is held constant in the state). -/
structure EState where
  heap : List EnvNode
  current : Nat
  globals : Nat
  output : String
  errOutput : String
  now : Rat

/-- Heap read (`Rc` dereference). -/
def getNode (heap : List EnvNode) (id : Nat) : Option EnvNode :=
  heap.get? id

/-- Heap write at an existing address (`RefCell::borrow_mut`). -/
def setNode (heap : List EnvNode) (id : Nat) (n : EnvNode) : List EnvNode :=
  heap.set id n

/-- Allocate a node at the end of the heap (`Rc::new(RefCell::new(..))`). -/
def allocNode (heap : List EnvNode) (n : EnvNode) : List EnvNode × Nat :=
  (heap ++ [n], heap.length)

/-- The `Environment::get` against the heap, walking `enclosing` links.
`fuel` bounds the walk; `none` means the bound was hit (callers pass a
bound no reachable chain exceeds) or the address dangles, which no
reachable state produces. -/
def envGet (fuel : Nat) (heap : List EnvNode) (id : Nat) (name : String) :
    Option (Except String Literal) :=
  match fuel with
  | 0 => none
  | f + 1 =>
      match getNode heap id with
      | none => none
      | some node =>
          match lookupAssoc node.values name with
          | some v => some (.ok v)
          | none =>
              match node.enclosing with
              | some e => envGet f heap e name
              | none => some (.error ("Undefined variable '" ++ name ++ "'."))

/-- The `Environment::assign` against the heap. -/
def envAssign (fuel : Nat) (heap : List EnvNode) (id : Nat) (name : String)
    (v : Literal) : Option (Except String (List EnvNode)) :=
  match fuel with
  | 0 => none
  | f + 1 =>
      match getNode heap id with
      | none => none
      | some node =>
          if containsKey node.values name then
            some (.ok (setNode heap id { node with values := insertAssoc node.values name v }))
          else
            match node.enclosing with
            | some e => envAssign f heap e name v
            | none => some (.error ("Undefined variable '" ++ name ++ "'."))

/-- The `Environment::define` against the heap (a dangling address writes
nothing, which no reachable state produces). -/
def envDefine (heap : List EnvNode) (id : Nat) (name : String) (v : Literal) :
    List EnvNode :=
  match getNode heap id with
  | none => heap
  | some node => setNode heap id { node with values := insertAssoc node.values name v }

/-! ## Evaluator (src/interpreter/interpreter.rs, src/interpreter/callable.rs) -/

/-- The `InterpreterErrorKind` from src/interpreter/interpreter.rs. -/
inductive IErr where
  | general (msg : String)
  | ret (value : Option Literal)

/-- Outcome of one embedded call: a value, an `InterpreterErrorKind`,
or `stuck` — the embedding's marker for "the Rust call does not return
a `Result`" (fuel exhausted, or a panic such as the `unimplemented!()`
arm). -/
inductive IRes (α : Type) where
  | ok (a : α)
  | err (e : IErr)
  | stuck

/-- The `BinOp` match of `Interpreter::evaluate` after both operands
evaluated (src/interpreter/interpreter.rs lines 210-281).  The `BinOp::Eq`
arm is the source's `unimplemented!()` panic — `stuck`. -/
def evalBinOp (op : BinOp) (left right : Literal) : IRes Literal :=
  match op with
  | .minus =>
      match left, right with
      | .number n1, .number n2 => .ok (.number (n1 - n2))
      | _, _ => .err (.general "Operands must be numbers")
  | .plus =>
      match left, right with
      | .number n1, .number n2 => .ok (.number (n1 + n2))
      | .string s1, .string s2 => .ok (.string (s1 ++ s2))
      | _, _ => .err (.general "Operands must be two numbers or two strings")
  | .multiply =>
      match left, right with
      | .number n1, .number n2 => .ok (.number (n1 * n2))
      | _, _ => .err (.general "Operands must be numbers")
  | .divide =>
      match left, right with
      | .number n1, .number n2 => .ok (.number (n1 / n2))
      | _, _ => .err (.general "Operands must be numbers")
  | .gt =>
      match left, right with
      | .number n1, .number n2 => .ok (.bool (n1 > n2))
      | _, _ => .err (.general "Operands must be numbers")
  | .ge =>
      match left, right with
      | .number n1, .number n2 => .ok (.bool (n1 ≥ n2))
      | _, _ => .err (.general "Operands must be numbers")
  | .lt =>
      match left, right with
      | .number n1, .number n2 => .ok (.bool (n1 < n2))
      | _, _ => .err (.general "Operands must be numbers")
  | .le =>
      match left, right with
      | .number n1, .number n2 => .ok (.bool (n1 ≤ n2))
      | _, _ => .err (.general "Operands must be numbers")
  | .eqEq => .ok (.bool (isEqual left right))
  | .ne => .ok (.bool (!isEqual left right))
  | .eq => .stuck

/-- The `Interpreter::new` (src/interpreter/interpreter.rs lines 25-42):
one global environment holding the native `clock`. -/
def initState : EState :=
  { heap := [{ values := [("clock", Literal.callable (.other .clock))], enclosing := none }]
    current := 0
    globals := 0
    output := ""
    errOutput := ""
    now := 0 }

mutual

/-- The `Interpreter::execute` (src/interpreter/interpreter.rs lines 44-109).
Fuel is consumed on entry; every nested call runs at one less. -/
def execute : Nat → EState → Stmt → IRes Unit × EState
  | 0, st, _ => (.stuck, st)
  | f + 1, st, stmt =>
      match stmt with
      | .print e =>
          match evaluate f st e with
          | (.ok v, st1) =>
              (.ok (), { st1 with output := st1.output ++ Literal.display v ++ "\n" })
          | (.err e, st1) => (.err e, st1)
          | (.stuck, st1) => (.stuck, st1)
      | .expression e =>
          match evaluate f st e with
          | (.ok _, st1) => (.ok (), st1)
          | (.err e, st1) => (.err e, st1)
          | (.stuck, st1) => (.stuck, st1)
      | .var name initializer =>
          match
            (match initializer with
             | some ini => evaluate f st ini
             | none => (.ok Literal.nil, st)) with
          | (.ok v, st1) =>
              (.ok (), { st1 with heap := envDefine st1.heap st1.current name.lexeme v })
          | (.err e, st1) => (.err e, st1)
          | (.stuck, st1) => (.stuck, st1)
      | .block stmts =>
          let (heap1, id) := allocNode st.heap { values := [], enclosing := some st.current }
          executeBlock f { st with heap := heap1 } stmts id
      | .sIf condition thenStmt elseStmt =>
          match evaluate f st condition with
          | (.ok c, st1) =>
              if isTruthy c then execute f st1 thenStmt
              else
                match elseStmt with
                | some s => execute f st1 s
                | none => (.ok (), st1)
          | (.err e, st1) => (.err e, st1)
          | (.stuck, st1) => (.stuck, st1)
      | .sWhile condition body =>
          match evaluate f st condition with
          | (.ok c, st1) =>
              if isTruthy c then
                match execute f st1 body with
                | (.ok _, st2) => execute f st2 (.sWhile condition body)
                | (.err e, st2) => (.err e, st2)
                | (.stuck, st2) => (.stuck, st2)
              else (.ok (), st1)
          | (.err e, st1) => (.err e, st1)
          | (.stuck, st1) => (.stuck, st1)
      | .function name params body =>
          let func := LoxCallable.function name.lexeme params body st.current
          (.ok (), { st with heap := envDefine st.heap st.current name.lexeme (.callable func) })
      | .sReturn _ value =>
          match value with
          | some e =>
              match evaluate f st e with
              | (.ok v, st1) => (.err (.ret (some v)), st1)
              | (.err e, st1) => (.err e, st1)
              | (.stuck, st1) => (.stuck, st1)
          | none => (.err (.ret none), st)

/-- The `Interpreter::execute_block` (src/interpreter/interpreter.rs lines
111-135): remember the current environment pointer, swap in the new
one, run the statements until the first error, then restore the pointer
unconditionally — on normal completion, on error, and on the embedding's
`stuck` outcome alike. -/
def executeBlock : Nat → EState → List Stmt → Nat → IRes Unit × EState
  | 0, st, _, _ => (.stuck, st)
  | f + 1, st, stmts, envId =>
      let previous := st.current
      match execList f { st with current := envId } stmts with
      | (r, st2) => (r, { st2 with current := previous })

/-- The statement loop inside `execute_block`: stop at the first
statement that does not return `Ok`. -/
def execList : Nat → EState → List Stmt → IRes Unit × EState
  | 0, st, _ => (.stuck, st)
  | _ + 1, st, [] => (.ok (), st)
  | f + 1, st, s :: rest =>
      match execute f st s with
      | (.ok _, st1) => execList f st1 rest
      | (r, st1) => (r, st1)

/-- The `Interpreter::evaluate` (src/interpreter/interpreter.rs lines
137-286). -/
def evaluate : Nat → EState → Expr → IRes Literal × EState
  | 0, st, _ => (.stuck, st)
  | f + 1, st, e =>
      match e.kind with
      | .literal l => (.ok l, st)
      | .grouping g => evaluate f st g
      | .var name =>
          match envGet (st.heap.length + 1) st.heap st.current name.lexeme with
          | none => (.stuck, st)
          | some (.ok v) => (.ok v, st)
          | some (.error msg) => (.err (.general msg), st)
      | .assign name value =>
          match evaluate f st value with
          | (.ok v, st1) =>
              match envAssign (st1.heap.length + 1) st1.heap st1.current name.lexeme v with
              | none => (.stuck, st1)
              | some (.ok heap2) => (.ok v, { st1 with heap := heap2 })
              | some (.error msg) => (.err (.general msg), st1)
          | (.err e, st1) => (.err e, st1)
          | (.stuck, st1) => (.stuck, st1)
      | .call callee args =>
          match evaluate f st callee with
          | (.ok calleeV, st1) =>
              match calleeV with
              | .callable c =>
                  if args.length ≠ c.arity then
                    (.err (.general ("Expected " ++ toString c.arity ++
                      " arguments but got " ++ toString args.length ++ ".")), st1)
                  else
                    match evalArgs f st1 args with
                    | (.ok vs, st2) => callCallable f st2 c vs
                    | (.err e, st2) => (.err e, st2)
                    | (.stuck, st2) => (.stuck, st2)
              | _ => (.err (.general "Can only call functions and classes"), st1)
          | (.err e, st1) => (.err e, st1)
          | (.stuck, st1) => (.stuck, st1)
      | .unary op operand =>
          match evaluate f st operand with
          | (.ok right, st1) =>
              match op with
              | .binNeg =>
                  match right with
                  | .number n => (.ok (.number (-n)), st1)
                  | _ => (.err (.general "Operand must be a number"), st1)
              | .logNeg => (.ok (.bool (isTruthy right)), st1)
          | (.err e, st1) => (.err e, st1)
          | (.stuck, st1) => (.stuck, st1)
      | .logical op lhs rhs =>
          match evaluate f st lhs with
          | (.ok left, st1) =>
              match op with
              | .and => if !isTruthy left then (.ok left, st1) else evaluate f st1 rhs
              | .or => if isTruthy left then (.ok left, st1) else evaluate f st1 rhs
          | (.err e, st1) => (.err e, st1)
          | (.stuck, st1) => (.stuck, st1)
      | .binary op lhs rhs =>
          match evaluate f st lhs with
          | (.ok left, st1) =>
              match evaluate f st1 rhs with
              | (.ok right, st2) => (evalBinOp op left right, st2)
              | (.err e, st2) => (.err e, st2)
              | (.stuck, st2) => (.stuck, st2)
          | (.err e, st1) => (.err e, st1)
          | (.stuck, st1) => (.stuck, st1)

/-- Evaluate a call's arguments left to right, stopping at the first
failure (the `for argument in arguments` loop with `?`). -/
def evalArgs : Nat → EState → List Expr → IRes (List Literal) × EState
  | 0, st, _ => (.stuck, st)
  | _ + 1, st, [] => (.ok [], st)
  | f + 1, st, a :: rest =>
      match evaluate f st a with
      | (.ok v, st1) =>
          match evalArgs f st1 rest with
          | (.ok vs, st2) => (.ok (v :: vs), st2)
          | (.err e, st2) => (.err e, st2)
          | (.stuck, st2) => (.stuck, st2)
      | (.err e, st1) => (.err e, st1)
      | (.stuck, st1) => (.stuck, st1)

/-- The `Callable::call` (src/interpreter/callable.rs).  A user function
builds a fresh environment enclosing its captured closure, defines the
parameters positionally, runs the body through `execute_block`, turns a
`Return` signal into the carried value (`Nil` if none) and a normal
completion into `Nil`.  Rust indexes `args[i]` for each parameter, a
panic when fewer arguments than parameters arrive (unreachable behind
the arity check) — embedded as `stuck`.  `Clock` reads the state's
clock. -/
def callCallable : Nat → EState → LoxCallable → List Literal → IRes Literal × EState
  | 0, st, _, _ => (.stuck, st)
  | f + 1, st, c, args =>
      match c with
      | .function _ params body closure =>
          if params.length ≤ args.length then
            let node : EnvNode :=
              { values :=
                  (params.zip args).foldl
                    (fun vs pa => insertAssoc vs pa.1.lexeme pa.2) []
                enclosing := some closure }
            let (heap1, id) := allocNode st.heap node
            match executeBlock f { st with heap := heap1 } body id with
            | (.err (.ret value), st1) =>
                (.ok (match value with | some v => v | none => .nil), st1)
            | (.err e, st1) => (.err e, st1)
            | (.stuck, st1) => (.stuck, st1)
            | (.ok _, st1) => (.ok .nil, st1)
          else (.stuck, st)
      | .other .clock => (.ok (.number st.now), st)

end

/-! ## Runner (src/runner.rs) -/

/-- The `LoxErrorType` from src/lib.rs. -/
inductive LoxErrorType where
  | lexingError | parsingError | runtimeError
  deriving DecidableEq, Repr

/-- The `LoxError` from src/lib.rs. -/
structure LoxError where
  errorType : LoxErrorType
  line : Nat
  deriving DecidableEq, Repr

/-- Outcome of `Runner::run`. -/
inductive RunRes where
  | ok
  | err (e : LoxError)
  | stuck

/-- The statement loop of `Runner::run` (src/runner.rs lines 30-45):
a `General` error prints `Interpreter Error: <msg>` to stderr and stops
the run with a `RuntimeError`; every other `InterpreterErrorKind` — the
`Return` signal — falls to the `_ => ()` arm and the loop continues with
the next statement; an empty list returns `Ok`. -/
def runStmts (fuel : Nat) : EState → List Stmt → RunRes × EState
  | st, [] => (.ok, st)
  | st, s :: rest =>
      match execute fuel st s with
      | (.ok _, st1) => runStmts fuel st1 rest
      | (.err (.general msg), st1) =>
          (.err { errorType := .runtimeError, line := 0 },
           { st1 with errOutput := st1.errOutput ++ "Interpreter Error: " ++ msg ++ "\n" })
      | (.err (.ret _), st1) => runStmts fuel st1 rest
      | (.stuck, st1) => (.stuck, st1)

/-! ## Lexer (src/lexer/cursor.rs, src/lexer/mod.rs)

The cursor's `Chars` iterator becomes a list of characters; `initial_len`
is kept in character units (Rust counts bytes there, but the field only
feeds the diagnostic `length` of a token).  Rust's Unicode character
classes are modelled by Lean's `Char` predicates. -/

/-- The `EOF_CHAR` from src/lexer/cursor.rs. -/
def eofChar : Char := Char.ofNat 0

/-- The `Cursor` from src/lexer/cursor.rs. -/
structure Cursor where
  initialLen : Nat
  chars : List Char
  deriving DecidableEq, Repr

/-- The `Cursor::new`. -/
def Cursor.new (input : String) : Cursor :=
  { initialLen := input.toList.length, chars := input.toList }

/-- The `Cursor::first`: current character, `EOF_CHAR` at end. -/
def Cursor.first (cur : Cursor) : Char :=
  cur.chars.head?.getD eofChar

/-- The `Cursor::second`. -/
def Cursor.second (cur : Cursor) : Char :=
  (cur.chars.drop 1).head?.getD eofChar

/-- The `Cursor::is_eof`. -/
def Cursor.isEof (cur : Cursor) : Bool :=
  cur.chars.isEmpty

/-- The `Cursor::len_consumed`. -/
def Cursor.lenConsumed (cur : Cursor) : Nat :=
  cur.initialLen - cur.chars.length

/-- The `Cursor::reset_len_consumed`. -/
def Cursor.resetLen (cur : Cursor) : Cursor :=
  { cur with initialLen := cur.chars.length }

/-- The `Cursor::bump`: consume and return the current character. -/
def Cursor.bump (cur : Cursor) : Option Char × Cursor :=
  match cur.chars with
  | [] => (none, cur)
  | c :: rest => (some c, { cur with chars := rest })

/-- The loop of `Cursor::eat_while` on the character list. -/
def eatWhileList (p : Char → Bool) : List Char → List Char
  | [] => []
  | c :: rest => if p c then eatWhileList p rest else c :: rest

/-- The `Cursor::eat_while`. -/
def Cursor.eatWhile (p : Char → Bool) (cur : Cursor) : Cursor :=
  { cur with chars := eatWhileList p cur.chars }

/-- The accumulating loop of `Cursor::string` (src/lexer/mod.rs lines
160-172): bump until a closing quote — then the token is `STRING` with
the interior as value and the interior re-wrapped in quotes as lexeme —
or until the input ends, in which case the result is an `Eof` kind with
an empty lexeme. -/
def stringLoop (acc : List Char) : List Char → (TokenKind × String) × List Char
  | [] => ((.eof, ""), [])
  | c :: rest =>
      if c = '"' then
        ((.string acc.asString, "\"" ++ acc.asString ++ "\""), rest)
      else stringLoop (acc ++ [c]) rest

/-- The `Cursor::string`. -/
def Cursor.string (cur : Cursor) : (TokenKind × String) × Cursor :=
  match stringLoop [] cur.chars with
  | (r, rest) => (r, { cur with chars := rest })

/-- Leading run of decimal digits and the remainder. -/
def takeDigits : List Char → List Char × List Char
  | [] => ([], [])
  | c :: rest =>
      if c.isDigit then
        match takeDigits rest with
        | (ds, rem) => (c :: ds, rem)
      else ([], c :: rest)

/-- Digit run to a natural number. -/
def digitsVal (l : List Char) : Nat :=
  l.foldl (fun a c => a * 10 + (c.toNat - 48)) 0

/-- The `val.parse::<f64>()` on the scanned numeral (digits, optionally a
point and digits), modelled exactly on `Rat`. -/
def parseDecimal (l : List Char) : Rat :=
  let intPart := l.takeWhile (fun c => c ≠ '.')
  let frac := (l.dropWhile (fun c => c ≠ '.')).drop 1
  (digitsVal intPart : Rat) + (digitsVal frac : Rat) / ((10 : Rat) ^ frac.length)

/-- The `Cursor::number` (src/lexer/mod.rs lines 174-192): consume digits,
then a fractional part only when a `.` is followed by a digit. -/
def Cursor.number (firstDigit : Char) (cur : Cursor) : (TokenKind × String) × Cursor :=
  match takeDigits cur.chars with
  | (ds, rest1) =>
      let intVal := firstDigit :: ds
      match rest1 with
      | '.' :: d :: rest2 =>
          if d.isDigit then
            match takeDigits (d :: rest2) with
            | (ds2, rest3) =>
                let val := intVal ++ '.' :: ds2
                ((.number (parseDecimal val), val.asString), { cur with chars := rest3 })
          else ((.number (parseDecimal intVal), intVal.asString), { cur with chars := rest1 })
      | _ => ((.number (parseDecimal intVal), intVal.asString), { cur with chars := rest1 })

/-- Leading run of identifier characters (`is_alphanumeric` or `_`). -/
def takeIdentChars : List Char → List Char × List Char
  | [] => ([], [])
  | c :: rest =>
      if c.isAlphanum || c = '_' then
        match takeIdentChars rest with
        | (ds, rem) => (c :: ds, rem)
      else ([], c :: rest)

/-- The reserved-word table of `Cursor::identifier` (src/lexer/mod.rs
lines 203-221). -/
def keywordKind (s : String) : TokenKind :=
  if s = "and" then .kAnd
  else if s = "class" then .kClass
  else if s = "else" then .kElse
  else if s = "false" then .kFalse
  else if s = "for" then .kFor
  else if s = "fun" then .kFun
  else if s = "if" then .kIf
  else if s = "nil" then .kNil
  else if s = "or" then .kOr
  else if s = "print" then .kPrint
  else if s = "return" then .kReturn
  else if s = "super" then .kSuper
  else if s = "this" then .kThis
  else if s = "true" then .kTrue
  else if s = "var" then .kVar
  else if s = "while" then .kWhile
  else .identifier s

/-- The `Cursor::identifier` (src/lexer/mod.rs lines 194-224). -/
def Cursor.identifier (startingChar : Char) (cur : Cursor) : (TokenKind × String) × Cursor :=
  match takeIdentChars cur.chars with
  | (ds, rest) =>
      let val := (startingChar :: ds).asString
      ((keywordKind val, val), { cur with chars := rest })

/-- The `Cursor::advance_token` (src/lexer/mod.rs lines 79-158).  The
dispatch follows the Rust `match` arm by arm; the comment and whitespace
arms recurse, bounded by fuel (each recursion consumed at least one
character, so any fuel above the character count suffices). -/
def advanceToken (fuel : Nat) (cur : Cursor) : Option (Token × Cursor) :=
  match fuel with
  | 0 => none
  | f + 1 =>
      match cur.bump with
      | (copt, cur1) =>
          let c := copt.getD eofChar
          let finish : TokenKind × String → Cursor → Option (Token × Cursor) :=
            fun ks cur2 =>
              some ({ value := ks.1, length := cur2.lenConsumed, lexeme := ks.2 }, cur2)
          if c = '(' then finish (.leftParen, String.singleton c) cur1
          else if c = ')' then finish (.rightParen, String.singleton c) cur1
          else if c = '{' then finish (.leftBrace, String.singleton c) cur1
          else if c = '}' then finish (.rightBrace, String.singleton c) cur1
          else if c = ',' then finish (.comma, String.singleton c) cur1
          else if c = '.' then finish (.dot, String.singleton c) cur1
          else if c = '-' then finish (.minus, String.singleton c) cur1
          else if c = '+' then finish (.plus, String.singleton c) cur1
          else if c = ';' then finish (.semicolon, String.singleton c) cur1
          else if c = '*' then finish (.star, String.singleton c) cur1
          else if c = '!' then
            if cur1.first = '=' then
              match cur1.bump with
              | (_, cur2) => finish (.ne, "!=") cur2
            else finish (.bang, String.singleton c) cur1
          else if c = '=' then
            if cur1.first = '=' then
              match cur1.bump with
              | (_, cur2) => finish (.eqEq, "==") cur2
            else finish (.eq, String.singleton c) cur1
          else if c = '>' then
            if cur1.first = '=' then
              match cur1.bump with
              | (_, cur2) => finish (.ge, ">=") cur2
            else finish (.gt, String.singleton c) cur1
          else if c = '<' then
            if cur1.first = '=' then
              match cur1.bump with
              | (_, cur2) => finish (.le, "<=") cur2
            else finish (.lt, String.singleton c) cur1
          else if c = '/' then
            if cur1.first = '/' then
              advanceToken f (cur1.eatWhile (fun ch => ch ≠ '\n'))
            else finish (.slash, String.singleton c) cur1
          else if c.isWhitespace then advanceToken f cur1
          else if c = '"' then
            match cur1.string with
            | (ks, cur2) => finish ks cur2
          else if c.isDigit then
            match Cursor.number c cur1 with
            | (ks, cur2) => finish ks cur2
          else if c.isAlpha || c = '_' then
            match Cursor.identifier c cur1 with
            | (ks, cur2) => finish ks cur2
          else if c = eofChar then finish (.eof, String.singleton c) cur1
          else finish (.unknown, String.singleton c) cur1

/-- The `iter::from_fn` loop of `tokenize` (src/lexer/mod.rs lines
65-76): while not at end of input, reset the consumed-length counter and
emit one token. -/
def tokenizeLoop (fuel : Nat) (cur : Cursor) : Option (List Token) :=
  match fuel with
  | 0 => none
  | f + 1 =>
      if cur.chars.isEmpty then some []
      else
        let cur1 := cur.resetLen
        match advanceToken (cur1.chars.length + 1) cur1 with
        | none => none
        | some (t, cur2) =>
            match tokenizeLoop f cur2 with
            | none => none
            | some ts => some (t :: ts)

/-- The `tokenize` over a source string. -/
def tokenize (input : String) : Option (List Token) :=
  tokenizeLoop (input.toList.length + 1) (Cursor.new input)

/-! ## Parser (src/parser/mod.rs, src/parser/parser.rs)

The peekable token iterator becomes a list; each method of `Parser`
becomes a fuel-driven function from the token list to a Rust-style
`Result` paired with the tokens left after the call (the iterator is
mutated in place, also on the error path).  The outer `Option` is the
fuel: `none` means the bound was hit (or an `unwrap` panicked, which no
reachable input does), never a parse result.  The `eprintln!` in
`declaration` is write-only diagnostic output and is not modelled. -/

/-- The `ParsingError` from src/parser/mod.rs. -/
inductive ParsingError where
  | generalError (msg : String)
  deriving DecidableEq, Repr

/-- Token-list alias for readability. -/
abbrev Toks := List Token

/-- Result of one parser method: fuel marker, or a `Result` with the
remaining tokens. -/
abbrev PResult (α : Type) := Option (Except ParsingError α × Toks)

/-- The `?` operator: propagate an `Err` (keeping the token state),
continue on `Ok`. -/
def pbind {α β : Type} (r : PResult α) (k : α → Toks → PResult β) : PResult β :=
  match r with
  | none => none
  | some (.error e, ts) => some (.error e, ts)
  | some (.ok a, ts) => k a ts

/-- The `Parser::peek_kind`. -/
def peekKind (ts : Toks) : Option TokenKind :=
  ts.head?.map Token.value

/-- The `Parser::advance`: skip `Whitespace` tokens, return the next other
token (the lexer never emits `Whitespace`, but the loop is part of the
source). -/
def pAdvance : Toks → Option Token × Toks
  | [] => (none, [])
  | t :: rest =>
      match t.value with
      | .whitespace => pAdvance rest
      | _ => (some t, rest)

/-- The `Parser::is_at_end`: `EOF` ahead or no tokens left. -/
def isAtEnd (ts : Toks) : Bool :=
  match peekKind ts with
  | some .eof => true
  | none => true
  | _ => false

/-- The `Parser::sync` (src/parser/parser.rs lines 63-89): advance until a
semicolon was just consumed or a statement keyword is next. -/
def sync (fuel : Nat) (ts : Toks) : Option Toks :=
  match fuel with
  | 0 => none
  | f + 1 =>
      match pAdvance ts with
      | (none, ts1) => some ts1
      | (some t, ts1) =>
          match t.value with
          | .semicolon => some ts1
          | _ =>
              match peekKind ts1 with
              | some .kClass | some .kFun | some .kVar | some .kFor
              | some .kIf | some .kWhile | some .kPrint | some .kReturn => some ts1
              | some _ => sync f ts1
              | none => some ts1

/-- The `impl TryFrom<TokenKind> for LogOp` (src/ast/expr.rs). -/
def logOpOfKind : TokenKind → Option LogOp
  | .kAnd => some .and
  | .kOr => some .or
  | _ => none

/-- The `impl TryFrom<TokenKind> for BinOp` (src/ast/expr.rs). -/
def binOpOfKind : TokenKind → Option BinOp
  | .le => some .le
  | .lt => some .lt
  | .ge => some .ge
  | .gt => some .gt
  | .eq => some .eq
  | .eqEq => some .eqEq
  | .plus => some .plus
  | .minus => some .minus
  | .star => some .multiply
  | .slash => some .divide
  | _ => none

/-- The `impl TryFrom<TokenKind> for UnOp` (src/ast/expr.rs). -/
def unOpOfKind : TokenKind → Option UnOp
  | .bang => some .logNeg
  | .minus => some .binNeg
  | _ => none

/-- Best-effort rendering of the derived `Debug` of `TokenKind`, used
only inside the "Unexpected token" diagnostic (string escapes and float
formatting of the host are approximated; no claim depends on them). -/
def tokenKindDebug : TokenKind → String
  | .leftParen => "LeftParen"
  | .rightParen => "RightParen"
  | .leftBrace => "LeftBrace"
  | .rightBrace => "RightBrace"
  | .comma => "Comma"
  | .dot => "Dot"
  | .minus => "Minus"
  | .plus => "Plus"
  | .semicolon => "Semicolon"
  | .slash => "Slash"
  | .star => "Star"
  | .bang => "Bang"
  | .ne => "Ne"
  | .eq => "Eq"
  | .eqEq => "EqEq"
  | .gt => "Gt"
  | .ge => "Ge"
  | .lt => "Lt"
  | .le => "Le"
  | .identifier s => "Identifier(\"" ++ s ++ "\")"
  | .string s => "String(\"" ++ s ++ "\")"
  | .number n => "Number(" ++ toString n ++ ")"
  | .kAnd => "And"
  | .kClass => "Class"
  | .kElse => "Else"
  | .kFalse => "False"
  | .kFun => "Fun"
  | .kFor => "For"
  | .kIf => "If"
  | .kNil => "Nil"
  | .kOr => "Or"
  | .kPrint => "Print"
  | .kReturn => "Return"
  | .kSuper => "Super"
  | .kThis => "This"
  | .kTrue => "True"
  | .kVar => "Var"
  | .kWhile => "While"
  | .whitespace => "Whitespace"
  | .unknown => "Unknown"
  | .eof => "Eof"

/-- Derived `Debug` of `Token`. -/
def tokenDebug (t : Token) : String :=
  "Token \x7b value: " ++ tokenKindDebug t.value ++ ", length: " ++
    toString t.length ++ ", lexeme: \"" ++ t.lexeme ++ "\" \x7d"

mutual

/-- The `Parser::parse` (src/parser/parser.rs lines 22-32). -/
def parseProgram : Nat → Toks → Option (List Stmt × Toks)
  | 0, _ => none
  | f + 1, ts =>
      if isAtEnd ts then some ([], ts)
      else
        match declaration f ts with
        | none => none
        | some (stmtOpt, ts1) =>
            match parseProgram f ts1 with
            | none => none
            | some (rest, ts2) =>
                match stmtOpt with
                | some s => some (s :: rest, ts2)
                | none => some (rest, ts2)

/-- The `Parser::declaration` (src/parser/parser.rs lines 91-112): dispatch
on `var`/`fun`, report-and-`sync` on a parse error (the failed statement
contributes nothing). -/
def declaration : Nat → Toks → Option (Option Stmt × Toks)
  | 0, _ => none
  | f + 1, ts =>
      match
        (match peekKind ts with
         | some .kVar =>
             match pAdvance ts with
             | (_, ts1) => varDeclaration f ts1
         | some .kFun =>
             match pAdvance ts with
             | (_, ts1) => functionRule f "function" ts1
         | _ => statement f ts) with
      | none => none
      | some (.ok v, ts1) => some (some v, ts1)
      | some (.error (.generalError _), ts1) =>
          match sync f ts1 with
          | none => none
          | some ts2 => some (none, ts2)

/-- The `Parser::function` (src/parser/parser.rs lines 114-175). -/
def functionRule : Nat → String → Toks → PResult Stmt
  | 0, _, _ => none
  | f + 1, kind, ts =>
      match peekKind ts with
      | some (.identifier _) =>
          match pAdvance ts with
          | (some name, ts1) =>
              (match peekKind ts1 with
               | some .leftParen =>
                   match pAdvance ts1 with
                   | (_, ts2) =>
                       pbind
                         (match peekKind ts2 with
                          | some .rightParen => some (.ok [], ts2)
                          | _ => paramsLoop f [] ts2)
                         fun params ts3 =>
                           match peekKind ts3 with
                           | some .rightParen =>
                               match pAdvance ts3 with
                               | (_, ts4) =>
                                   match peekKind ts4 with
                                   | some .leftBrace =>
                                       match pAdvance ts4 with
                                       | (_, ts5) =>
                                           pbind (blockRule f [] ts5) fun body ts6 =>
                                             some (.ok (Stmt.function name params body), ts6)
                                   | _ =>
                                       some (.error (.generalError
                                         ("Expect '\x7b' before " ++ kind ++ " body")), ts4)
                           | _ =>
                               some (.error (.generalError "Expect ')' after parameters"), ts3)
               | _ =>
                   some (.error (.generalError
                     ("Expect '(' after " ++ kind ++ " name")), ts1))
          | (none, _) => none
      | _ => some (.error (.generalError ("Expect " ++ kind ++ " name.")), ts)

/-- The parameter loop of `Parser::function`, entered when the next
token is not `)`. -/
def paramsLoop : Nat → List Token → Toks → PResult (List Token)
  | 0, _, _ => none
  | f + 1, params, ts =>
      if params.length ≥ 255 then
        some (.error (.generalError "Can't have more than 255 parameters."), ts)
      else
        match peekKind ts with
        | some (.identifier _) =>
            match pAdvance ts with
            | (some t, ts1) =>
                (match peekKind ts1 with
                 | some .comma =>
                     match pAdvance ts1 with
                     | (_, ts2) => paramsLoop f (params ++ [t]) ts2
                 | _ => some (.ok (params ++ [t]), ts1))
            | (none, _) => none
        | _ => some (.error (.generalError "Expect parameter name."), ts)

/-- The `Parser::var_declaration` (src/parser/parser.rs lines 177-201). -/
def varDeclaration : Nat → Toks → PResult Stmt
  | 0, _ => none
  | f + 1, ts =>
      match peekKind ts with
      | some (.identifier _) =>
          match pAdvance ts with
          | (some name, ts1) =>
              pbind
                (match peekKind ts1 with
                 | some .eq =>
                     match pAdvance ts1 with
                     | (_, ts2) =>
                         pbind (expression f ts2) fun ini ts3 =>
                           some (.ok (some ini), ts3)
                 | _ => some (.ok none, ts1))
                fun initializer ts3 =>
                  match peekKind ts3 with
                  | some .semicolon =>
                      match pAdvance ts3 with
                      | (_, ts4) => some (.ok (Stmt.var name initializer), ts4)
                  | _ =>
                      some (.error (.generalError
                        "Expect ';' after variable declaration."), ts3)
          | (none, _) => none
      | _ => some (.error (.generalError "Expect variable name."), ts)

/-- The `Parser::statement` (src/parser/parser.rs lines 203-231). -/
def statement : Nat → Toks → PResult Stmt
  | 0, _ => none
  | f + 1, ts =>
      match peekKind ts with
      | some .kPrint =>
          match pAdvance ts with
          | (_, ts1) => printStatement f ts1
      | some .leftBrace =>
          match pAdvance ts with
          | (_, ts1) =>
              pbind (blockRule f [] ts1) fun stmts ts2 =>
                some (.ok (Stmt.block stmts), ts2)
      | some .kIf =>
          match pAdvance ts with
          | (_, ts1) => ifStatement f ts1
      | some .kWhile =>
          match pAdvance ts with
          | (_, ts1) => whileStatement f ts1
      | some .kFor =>
          match pAdvance ts with
          | (_, ts1) => forStatement f ts1
      | some .kReturn =>
          match pAdvance ts with
          | (some token, ts1) => returnStatement f token ts1
          | (none, _) => none
      | _ => expressionStatement f ts

/-- The `Parser::if_statement` (src/parser/parser.rs lines 233-260). -/
def ifStatement : Nat → Toks → PResult Stmt
  | 0, _ => none
  | f + 1, ts =>
      match peekKind ts with
      | some .leftParen =>
          match pAdvance ts with
          | (_, ts1) =>
              pbind (expression f ts1) fun condition ts2 =>
                match peekKind ts2 with
                | some .rightParen =>
                    match pAdvance ts2 with
                    | (_, ts3) =>
                        pbind (statement f ts3) fun thenBranch ts4 =>
                          match peekKind ts4 with
                          | some .kElse =>
                              match pAdvance ts4 with
                              | (_, ts5) =>
                                  pbind (statement f ts5) fun elseBranch ts6 =>
                                    some (.ok (Stmt.sIf condition thenBranch
                                      (some elseBranch)), ts6)
                          | _ => some (.ok (Stmt.sIf condition thenBranch none), ts4)
                | _ => some (.error (.generalError "Expect ')' after 'if'"), ts2)
      | _ => some (.error (.generalError "Expect '(' after 'if'"), ts)

/-- The `Parser::while_statement` (src/parser/parser.rs lines 262-278).
Both diagnostics name `'if'` in the source. -/
def whileStatement : Nat → Toks → PResult Stmt
  | 0, _ => none
  | f + 1, ts =>
      match peekKind ts with
      | some .leftParen =>
          match pAdvance ts with
          | (_, ts1) =>
              pbind (expression f ts1) fun condition ts2 =>
                match peekKind ts2 with
                | some .rightParen =>
                    match pAdvance ts2 with
                    | (_, ts3) =>
                        pbind (statement f ts3) fun body ts4 =>
                          some (.ok (Stmt.sWhile condition body), ts4)
                | _ => some (.error (.generalError "Expect ')' after 'if'"), ts2)
      | _ => some (.error (.generalError "Expect '(' after 'if'"), ts)

/-- The `Parser::for_statement` (src/parser/parser.rs lines 280-349): parse
the three clauses, then desugar — wrap the body with the increment,
substitute `true` for a missing condition, build a `While`, and wrap it
with the initializer.  The `'('` diagnostic names `'if'` in the source. -/
def forStatement : Nat → Toks → PResult Stmt
  | 0, _ => none
  | f + 1, ts =>
      match peekKind ts with
      | some .leftParen =>
          match pAdvance ts with
          | (_, ts1) =>
              pbind
                (match peekKind ts1 with
                 | some .semicolon =>
                     match pAdvance ts1 with
                     | (_, ts2) => some (.ok none, ts2)
                 | some .kVar =>
                     match pAdvance ts1 with
                     | (_, ts2) =>
                         pbind (varDeclaration f ts2) fun s ts3 => some (.ok (some s), ts3)
                 | _ =>
                     pbind (expressionStatement f ts1) fun s ts3 => some (.ok (some s), ts3))
                fun initializer tsA =>
                  pbind
                    (match peekKind tsA with
                     | some .semicolon => some (.ok none, tsA)
                     | _ =>
                         pbind (expression f tsA) fun c tsB => some (.ok (some c), tsB))
                    fun condition tsB =>
                      match peekKind tsB with
                      | some .semicolon =>
                          match pAdvance tsB with
                          | (_, tsC) =>
                              pbind
                                (match peekKind tsC with
                                 | some .rightParen => some (.ok none, tsC)
                                 | _ =>
                                     pbind (expression f tsC) fun i tsD =>
                                       some (.ok (some i), tsD))
                                fun increment tsD =>
                                  match peekKind tsD with
                                  | some .rightParen =>
                                      match pAdvance tsD with
                                      | (_, tsE) =>
                                          pbind (statement f tsE) fun body tsF =>
                                            let body1 :=
                                              match increment with
                                              | some inc =>
                                                  Stmt.block [body, Stmt.expression inc]
                                              | none => body
                                            let cond :=
                                              match condition with
                                              | some c => c
                                              | none =>
                                                  Expr.mk (.literal (.bool true))
                                            let whileStmt := Stmt.sWhile cond body1
                                            let result :=
                                              match initializer with
                                              | some ini => Stmt.block [ini, whileStmt]
                                              | none => whileStmt
                                            some (.ok result, tsF)
                                  | _ =>
                                      some (.error (.generalError
                                        "Expect ')' after for clauses."), tsD)
                      | _ =>
                          some (.error (.generalError
                            "Expect ';' after loop conditions."), tsB)
      | _ => some (.error (.generalError "Expect '(' after 'if'"), ts)

/-- The `Parser::print_statement` (src/parser/parser.rs lines 351-361). -/
def printStatement : Nat → Toks → PResult Stmt
  | 0, _ => none
  | f + 1, ts =>
      pbind (expression f ts) fun value ts1 =>
        match peekKind ts1 with
        | some .semicolon =>
            match pAdvance ts1 with
            | (_, ts2) => some (.ok (Stmt.print value), ts2)
        | _ => some (.error (.generalError "Expect ';' after value"), ts1)

/-- The `Parser::return_statement` (src/parser/parser.rs lines 363-378). -/
def returnStatement : Nat → Token → Toks → PResult Stmt
  | 0, _, _ => none
  | f + 1, keyword, ts =>
      pbind
        (match peekKind ts with
         | some .semicolon => some (.ok none, ts)
         | _ => pbind (expression f ts) fun e ts1 => some (.ok (some e), ts1))
        fun value ts1 =>
          match peekKind ts1 with
          | some .semicolon =>
              match pAdvance ts1 with
              | (_, ts2) => some (.ok (Stmt.sReturn keyword value), ts2)
          | _ => some (.error (.generalError "Expect ';' after return value"), ts1)

/-- The `Parser::expression_statement` (src/parser/parser.rs lines 380-390). -/
def expressionStatement : Nat → Toks → PResult Stmt
  | 0, _ => none
  | f + 1, ts =>
      pbind (expression f ts) fun e ts1 =>
        match peekKind ts1 with
        | some .semicolon =>
            match pAdvance ts1 with
            | (_, ts2) => some (.ok (Stmt.expression e), ts2)
        | _ => some (.error (.generalError "Expect ';' after value"), ts1)

/-- The `Parser::block` (src/parser/parser.rs lines 392-412), with the
collected statements as accumulator. -/
def blockRule : Nat → List Stmt → Toks → PResult (List Stmt)
  | 0, _, _ => none
  | f + 1, acc, ts =>
      if isAtEnd ts then
        match peekKind ts with
        | some .rightBrace =>
            match pAdvance ts with
            | (_, ts1) => some (.ok acc, ts1)
        | _ => some (.error (.generalError "Expect '\x7d' after block."), ts)
      else
        match peekKind ts with
        | some .rightBrace =>
            match pAdvance ts with
            | (_, ts1) => some (.ok acc, ts1)
        | _ =>
            match declaration f ts with
            | none => none
            | some (stmtOpt, ts1) =>
                match stmtOpt with
                | some s => blockRule f (acc ++ [s]) ts1
                | none => blockRule f acc ts1

/-- The `Parser::expression` (src/parser/parser.rs lines 414-416). -/
def expression : Nat → Toks → PResult Expr
  | 0, _ => none
  | f + 1, ts => assignment f ts

/-- The `Parser::assignment` (src/parser/parser.rs lines 418-436):
right-associative, with target validation. -/
def assignment : Nat → Toks → PResult Expr
  | 0, _ => none
  | f + 1, ts =>
      pbind (orExpr f ts) fun e ts1 =>
        match peekKind ts1 with
        | some .eq =>
            match pAdvance ts1 with
            | (_, ts2) =>
                pbind (assignment f ts2) fun value ts3 =>
                  match e.kind with
                  | .var name => some (.ok (Expr.mk (.assign name value)), ts3)
                  | _ => some (.error (.generalError "Invalid assignment target"), ts3)
        | _ => some (.ok e, ts1)

/-- The `Parser::or` (src/parser/parser.rs lines 438-456). -/
def orExpr : Nat → Toks → PResult Expr
  | 0, _ => none
  | f + 1, ts => pbind (andExpr f ts) fun e ts1 => orLoop f e ts1

/-- The folding loop of `Parser::or`. -/
def orLoop : Nat → Expr → Toks → PResult Expr
  | 0, _, _ => none
  | f + 1, e, ts =>
      match peekKind ts with
      | some .kOr =>
          match pAdvance ts with
          | (some opTok, ts1) =>
              (match logOpOfKind opTok.value with
               | some op =>
                   pbind (andExpr f ts1) fun right ts2 =>
                     orLoop f (Expr.mk (.logical op e right)) ts2
               | none => none)
          | (none, _) => none
      | _ => some (.ok e, ts)

/-- The `Parser::and` (src/parser/parser.rs lines 458-476). -/
def andExpr : Nat → Toks → PResult Expr
  | 0, _ => none
  | f + 1, ts => pbind (equality f ts) fun e ts1 => andLoop f e ts1

/-- The folding loop of `Parser::and`. -/
def andLoop : Nat → Expr → Toks → PResult Expr
  | 0, _, _ => none
  | f + 1, e, ts =>
      match peekKind ts with
      | some .kAnd =>
          match pAdvance ts with
          | (some opTok, ts1) =>
              (match logOpOfKind opTok.value with
               | some op =>
                   pbind (equality f ts1) fun right ts2 =>
                     andLoop f (Expr.mk (.logical op e right)) ts2
               | none => none)
          | (none, _) => none
      | _ => some (.ok e, ts)

/-- The `Parser::equality` (src/parser/parser.rs lines 478-496). -/
def equality : Nat → Toks → PResult Expr
  | 0, _ => none
  | f + 1, ts => pbind (comparison f ts) fun e ts1 => equalityLoop f e ts1

/-- The folding loop of `Parser::equality`. -/
def equalityLoop : Nat → Expr → Toks → PResult Expr
  | 0, _, _ => none
  | f + 1, e, ts =>
      match peekKind ts with
      | some .ne | some .eqEq =>
          match pAdvance ts with
          | (some opTok, ts1) =>
              (match binOpOfKind opTok.value with
               | some op =>
                   pbind (comparison f ts1) fun right ts2 =>
                     equalityLoop f (Expr.mk (.binary op e right)) ts2
               | none => none)
          | (none, _) => none
      | _ => some (.ok e, ts)

/-- The `Parser::comparison` (src/parser/parser.rs lines 498-520). -/
def comparison : Nat → Toks → PResult Expr
  | 0, _ => none
  | f + 1, ts => pbind (term f ts) fun e ts1 => comparisonLoop f e ts1

/-- The folding loop of `Parser::comparison`. -/
def comparisonLoop : Nat → Expr → Toks → PResult Expr
  | 0, _, _ => none
  | f + 1, e, ts =>
      match peekKind ts with
      | some .gt | some .ge | some .lt | some .le =>
          match pAdvance ts with
          | (some opTok, ts1) =>
              (match binOpOfKind opTok.value with
               | some op =>
                   pbind (term f ts1) fun right ts2 =>
                     comparisonLoop f (Expr.mk (.binary op e right)) ts2
               | none => none)
          | (none, _) => none
      | _ => some (.ok e, ts)

/-- The `Parser::term` (src/parser/parser.rs lines 522-541). -/
def term : Nat → Toks → PResult Expr
  | 0, _ => none
  | f + 1, ts => pbind (factor f ts) fun e ts1 => termLoop f e ts1

/-- The folding loop of `Parser::term`. -/
def termLoop : Nat → Expr → Toks → PResult Expr
  | 0, _, _ => none
  | f + 1, e, ts =>
      match peekKind ts with
      | some .minus | some .plus =>
          match pAdvance ts with
          | (some opTok, ts1) =>
              (match binOpOfKind opTok.value with
               | some op =>
                   pbind (factor f ts1) fun right ts2 =>
                     termLoop f (Expr.mk (.binary op e right)) ts2
               | none => none)
          | (none, _) => none
      | _ => some (.ok e, ts)

/-- The `Parser::factor` (src/parser/parser.rs lines 543-562). -/
def factor : Nat → Toks → PResult Expr
  | 0, _ => none
  | f + 1, ts => pbind (unaryRule f ts) fun e ts1 => factorLoop f e ts1

/-- The folding loop of `Parser::factor`. -/
def factorLoop : Nat → Expr → Toks → PResult Expr
  | 0, _, _ => none
  | f + 1, e, ts =>
      match peekKind ts with
      | some .slash | some .star =>
          match pAdvance ts with
          | (some opTok, ts1) =>
              (match binOpOfKind opTok.value with
               | some op =>
                   pbind (unaryRule f ts1) fun right ts2 =>
                     factorLoop f (Expr.mk (.binary op e right)) ts2
               | none => none)
          | (none, _) => none
      | _ => some (.ok e, ts)

/-- The `Parser::unary` (src/parser/parser.rs lines 564-576). -/
def unaryRule : Nat → Toks → PResult Expr
  | 0, _ => none
  | f + 1, ts =>
      match peekKind ts with
      | some .bang | some .minus =>
          match pAdvance ts with
          | (some opTok, ts1) =>
              (match unOpOfKind opTok.value with
               | some op =>
                   pbind (unaryRule f ts1) fun right ts2 =>
                     some (.ok (Expr.mk (.unary op right)), ts2)
               | none => none)
          | (none, _) => none
      | _ => callRule f ts

/-- The `Parser::call` (src/parser/parser.rs lines 578-592). -/
def callRule : Nat → Toks → PResult Expr
  | 0, _ => none
  | f + 1, ts => pbind (primary f ts) fun e ts1 => callLoop f e ts1

/-- The call-chaining loop of `Parser::call`. -/
def callLoop : Nat → Expr → Toks → PResult Expr
  | 0, _, _ => none
  | f + 1, e, ts =>
      match peekKind ts with
      | some .leftParen =>
          match pAdvance ts with
          | (_, ts1) =>
              pbind (finishCall f e ts1) fun e2 ts2 => callLoop f e2 ts2
      | _ => some (.ok e, ts)

/-- The `Parser::finish_call` (src/parser/parser.rs lines 594-627). -/
def finishCall : Nat → Expr → Toks → PResult Expr
  | 0, _, _ => none
  | f + 1, callee, ts =>
      pbind
        (match peekKind ts with
         | some .rightParen => some (.ok [], ts)
         | _ => argsLoop f [] ts)
        fun args ts1 =>
          match peekKind ts1 with
          | some .rightParen =>
              match pAdvance ts1 with
              | (_, ts2) => some (.ok (Expr.mk (.call callee args)), ts2)
          | _ => some (.error (.generalError "Expect ')' after arguments."), ts1)

/-- The argument loop of `Parser::finish_call`, entered when the next
token is not `)`. -/
def argsLoop : Nat → List Expr → Toks → PResult (List Expr)
  | 0, _, _ => none
  | f + 1, args, ts =>
      if args.length ≥ 255 then
        some (.error (.generalError "Can't have more than 255 arguments"), ts)
      else
        pbind (expression f ts) fun e ts1 =>
          match peekKind ts1 with
          | some .comma =>
              match pAdvance ts1 with
              | (_, ts2) => argsLoop f (args ++ [e]) ts2
          | _ => some (.ok (args ++ [e]), ts1)

/-- The `Parser::primary` (src/parser/parser.rs lines 629-679). -/
def primary : Nat → Toks → PResult Expr
  | 0, _ => none
  | f + 1, ts =>
      match pAdvance ts with
      | (none, ts1) => some (.error (.generalError "Unexpected EOF"), ts1)
      | (some token, ts1) =>
          match token.value with
          | .kFalse => some (.ok (Expr.mk (.literal (.bool false))), ts1)
          | .kTrue => some (.ok (Expr.mk (.literal (.bool true))), ts1)
          | .kNil => some (.ok (Expr.mk (.literal .nil)), ts1)
          | .number n => some (.ok (Expr.mk (.literal (.number n))), ts1)
          | .string s => some (.ok (Expr.mk (.literal (.string s))), ts1)
          | .leftParen =>
              pbind (expression f ts1) fun e ts2 =>
                match peekKind ts2 with
                | some .rightParen =>
                    match pAdvance ts2 with
                    | (_, ts3) => some (.ok (Expr.mk (.grouping e)), ts3)
                | _ =>
                    some (.error (.generalError "Expected ')' after expression"), ts2)
          | .identifier _ => some (.ok (Expr.mk (.var token)), ts1)
          | _ =>
              some (.error (.generalError
                ("Unexpected token " ++ tokenDebug token)), ts1)

end

/-- Does the `Literal` carry a callable? -/
def isCallableLit : Literal → Bool
  | .callable _ => true
  | _ => false

/-- The desugaring of §4.3, written after the specification's words for
comparison with the parser: if `incr` is present wrap the body as
`Block([body, Expression(incr)])`; if `cond` is absent substitute
`Literal(true)`; build the `While`; if `init` is present wrap it as
`Block([init, while])`. -/
def forDesugar (ini : Option Stmt) (cond : Option Expr) (inc : Option Expr)
    (body : Stmt) : Stmt :=
  let body1 :=
    match inc with
    | some i => Stmt.block [body, Stmt.expression i]
    | none => body
  let c :=
    match cond with
    | some c => c
    | none => Expr.mk (.literal (.bool true))
  let whileStmt := Stmt.sWhile c body1
  match ini with
  | some s => Stmt.block [s, whileStmt]
  | none => whileStmt

/-- The specification's `for` statement, as one definition: parse
`( init ; cond ; incr ) body` exactly per the grammar of §4.3 —
`forStmt → "(" ( varDecl | exprStmt | ";" ) expression? ";" expression? ")"
statement`, with the source's diagnostics — and return `forDesugar` of
the clauses that were actually parsed.  Comparing `forStatement` against
this function settles each per-case desugaring rule: the body is wrapped
with the increment exactly when an increment was parsed, `Literal(true)`
stands in exactly when the condition slot was empty, and the `While` is
wrapped with the initializer exactly when an initializer was parsed. -/
def forStatementSpec : Nat → Toks → PResult Stmt
  | 0, _ => none
  | f + 1, ts =>
      match peekKind ts with
      | some .leftParen =>
          match pAdvance ts with
          | (_, ts1) =>
              pbind
                (match peekKind ts1 with
                 | some .semicolon =>
                     match pAdvance ts1 with
                     | (_, ts2) => some (.ok none, ts2)
                 | some .kVar =>
                     match pAdvance ts1 with
                     | (_, ts2) =>
                         pbind (varDeclaration f ts2) fun s ts3 => some (.ok (some s), ts3)
                 | _ =>
                     pbind (expressionStatement f ts1) fun s ts3 => some (.ok (some s), ts3))
                fun initializer tsA =>
                  pbind
                    (match peekKind tsA with
                     | some .semicolon => some (.ok none, tsA)
                     | _ =>
                         pbind (expression f tsA) fun c tsB => some (.ok (some c), tsB))
                    fun condition tsB =>
                      match peekKind tsB with
                      | some .semicolon =>
                          match pAdvance tsB with
                          | (_, tsC) =>
                              pbind
                                (match peekKind tsC with
                                 | some .rightParen => some (.ok none, tsC)
                                 | _ =>
                                     pbind (expression f tsC) fun i tsD =>
                                       some (.ok (some i), tsD))
                                fun increment tsD =>
                                  match peekKind tsD with
                                  | some .rightParen =>
                                      match pAdvance tsD with
                                      | (_, tsE) =>
                                          pbind (statement f tsE) fun body tsF =>
                                            some (.ok (forDesugar initializer condition
                                              increment body), tsF)
                                  | _ =>
                                      some (.error (.generalError
                                        "Expect ')' after for clauses."), tsD)
                      | _ =>
                          some (.error (.generalError
                            "Expect ';' after loop conditions."), tsB)
      | _ => some (.error (.generalError "Expect '(' after 'if'"), ts)

/-- The token `i` of the worked `for` example. -/
def forTokI : Token := ⟨.identifier "i", 1, "i"⟩

/-- The tokens following `for` in `for (var i=0; i<3; i=i+1) print i;`. -/
def forToksExample : Toks :=
  [⟨.leftParen, 1, "("⟩, ⟨.kVar, 3, "var"⟩, forTokI, ⟨.eq, 1, "="⟩,
   ⟨.number 0, 1, "0"⟩, ⟨.semicolon, 1, ";"⟩, forTokI, ⟨.lt, 1, "<"⟩,
   ⟨.number 3, 1, "3"⟩, ⟨.semicolon, 1, ";"⟩, forTokI, ⟨.eq, 1, "="⟩,
   forTokI, ⟨.plus, 1, "+"⟩, ⟨.number 1, 1, "1"⟩, ⟨.rightParen, 1, ")"⟩,
   ⟨.kPrint, 5, "print"⟩, forTokI, ⟨.semicolon, 1, ";"⟩]

/-- The AST the example must desugar to:
`Block([init, While(cond, Block([body, Expression(incr)]))])`. -/
def forASTExample : Stmt :=
  Stmt.block
    [Stmt.var forTokI (some (Expr.mk (.literal (.number 0)))),
     Stmt.sWhile
       (Expr.mk (.binary .lt (Expr.mk (.var forTokI)) (Expr.mk (.literal (.number 3)))))
       (Stmt.block
         [Stmt.print (Expr.mk (.var forTokI)),
          Stmt.expression
            (Expr.mk (.assign forTokI
              (Expr.mk (.binary .plus (Expr.mk (.var forTokI))
                (Expr.mk (.literal (.number 1)))))))])]

/-! ## Helper lemmas -/

/-- Inserting under an existing key never changes the key list. -/
theorem keysOf_insertAssoc (vs : List (String × Literal)) (n : String) (v : Literal)
    (h : containsKey vs n = true) :
    keysOf (insertAssoc vs n v) = keysOf vs := by
  induction vs with
  | nil => simp [containsKey, lookupAssoc] at h
  | cons p rest ih =>
      rcases p with ⟨k, w⟩
      by_cases hk : k = n
      · simp [insertAssoc, hk, keysOf]
      · simp only [containsKey, lookupAssoc, hk, if_neg] at h
        simp [insertAssoc, hk, keysOf] at ih ⊢
        exact ih h

/-- The `Environment::assign` equals the specification's nearest-scope
update when some scope binds the name, and the undefined-variable error
otherwise. -/
theorem assign_eq_nearest : ∀ (env : Env) (n : String) (v : Literal),
    env.assign n v =
      (if env.chainContains n then Except.ok (assignNearest env n v)
       else Except.error ("Undefined variable '" ++ n ++ "'."))
  | .mk vs none, n, v => by
      by_cases h : containsKey vs n = true <;>
        simp [Env.assign, Env.chainContains, assignNearest, h]
  | .mk vs (some e), n, v => by
      have ih := assign_eq_nearest e n v
      by_cases h : containsKey vs n = true
      · simp [Env.assign, Env.chainContains, assignNearest, h]
      · by_cases h2 : e.chainContains n = true <;>
          simp [Env.assign, Env.chainContains, assignNearest, h, h2, ih]

/-- The nearest-scope update never adds or removes a key in any scope. -/
theorem scopeKeys_assignNearest : ∀ (env : Env) (n : String) (v : Literal),
    (assignNearest env n v).scopeKeys = env.scopeKeys
  | .mk vs none, n, v => by
      by_cases h : containsKey vs n = true <;>
        simp [assignNearest, Env.scopeKeys, h, keysOf_insertAssoc]
  | .mk vs (some e), n, v => by
      have ih := scopeKeys_assignNearest e n v
      by_cases h : containsKey vs n = true <;>
        simp [assignNearest, Env.scopeKeys, h, keysOf_insertAssoc, ih]

/-- The `execute_block` restores the evaluator's environment pointer on
every exit path: the restore happens after the statement loop no matter
what the loop produced. -/
theorem executeBlock_current (fuel : Nat) (st : EState) (stmts : List Stmt) (envId : Nat) :
    ((executeBlock fuel st stmts envId).2).current = st.current := by
  cases fuel with
  | zero => rfl
  | succ f =>
      rcases h : execList f { st with current := envId } stmts with ⟨r, st2⟩
      simp [executeBlock, h]

/-! ## Claims -/

/-- C3: for every execution of a `Block` statement, and every block
executed via `execute_block` (function bodies included), the evaluator's
current-environment pointer afterwards equals the pointer it held before
the block began — whichever way the block exits (normal completion,
propagated runtime error, the `Return` signal, and even the embedding's
fuel/panic marker). -/
theorem block_restores_current_env (fuel : Nat) (st : EState) (stmts : List Stmt) (envId : Nat) :
    ((executeBlock fuel st stmts envId).2).current = st.current ∧
    ((execute fuel st (.block stmts)).2).current = st.current := by
  refine ⟨executeBlock_current fuel st stmts envId, ?_⟩
  cases fuel with
  | zero => rfl
  | succ f =>
      simpa [execute, allocNode] using
        executeBlock_current f
          { st with heap := st.heap ++ [{ values := [], enclosing := some st.current }] }
          stmts st.heap.length

/-- C4: for every environment chain and name, `assign(name, v)` updates
the binding in the nearest scope (starting at the current one and
walking enclosing links) that already contains the name — the
`assignNearest` function written after the specification; when no scope
contains the name it fails with `Undefined variable '<name>'.` (and, the
result being an error, no scope is changed); and the nearest-scope
update never creates or removes a binding in any scope (per-scope key
lists are preserved). -/
theorem assign_updates_nearest_scope (env : Env) (n : String) (v : Literal) :
    env.assign n v =
      (if env.chainContains n then Except.ok (assignNearest env n v)
       else Except.error ("Undefined variable '" ++ n ++ "'.")) ∧
    (assignNearest env n v).scopeKeys = env.scopeKeys :=
  ⟨assign_eq_nearest env n v, scopeKeys_assignNearest env n v⟩

/-- C5: evaluating `Unary(!, e)` yields `Bool(truthy(v))` for the value
`v` of `e` — the un-negated truthiness, exactly as the source's
`UnOp::LogNeg` arm computes it — and `truthy(v)` is `false` exactly when
`v` is `Nil` or `Bool(false)`. -/
theorem unary_bang_yields_unnegated_truthiness (f : Nat) (st st1 : EState) (e : Expr)
    (v : Literal) (h : evaluate f st e = (.ok v, st1)) :
    evaluate (f + 1) st (.mk (.unary .logNeg e)) = (.ok (.bool (isTruthy v)), st1) ∧
    (isTruthy v = false ↔ v = .nil ∨ v = .bool false) := by
  constructor
  · simp [evaluate, Expr.kind, h]
  · cases v with
    | bool b => cases b <;> simp [isTruthy]
    | _ => simp [isTruthy]

/-- Witness for C5 at `e = nil`. -/
theorem unary_bang_yields_unnegated_truthiness_witness :
    evaluate 2 initState (.mk (.unary .logNeg (.mk (.literal .nil)))) =
      (.ok (.bool (isTruthy .nil)), initState) ∧
    (isTruthy Literal.nil = false ↔ Literal.nil = .nil ∨ Literal.nil = .bool false) :=
  unary_bang_yields_unnegated_truthiness 1 initState initState
    (.mk (.literal .nil)) .nil rfl

/-- C10: whenever at least one operand value is a callable — including
when both are the very same function value — `is_equal` is `false`
(callable equality is never decided by identity: no arm of `is_equal`
inspects callables, so such pairs fall to the catch-all), hence
`Binary(==, a, b)` evaluates to `Bool(false)` and `Binary(!=, a, b)` to
`Bool(true)`. -/
theorem callable_equality_always_false (f : Nat) (st st1 st2 : EState)
    (lhs rhs : Expr) (a b : Literal)
    (h1 : evaluate f st lhs = (.ok a, st1))
    (h2 : evaluate f st1 rhs = (.ok b, st2))
    (hc : isCallableLit a = true ∨ isCallableLit b = true) :
    isEqual a b = false ∧
    evaluate (f + 1) st (.mk (.binary .eqEq lhs rhs)) = (.ok (.bool false), st2) ∧
    evaluate (f + 1) st (.mk (.binary .ne lhs rhs)) = (.ok (.bool true), st2) := by
  have he : isEqual a b = false := by
    rcases hc with hc | hc
    · cases a <;> simp [isCallableLit] at hc
      cases b <;> simp [isEqual]
    · cases b <;> simp [isCallableLit] at hc
      cases a <;> simp [isEqual]
  refine ⟨he, ?_, ?_⟩ <;> simp [evaluate, Expr.kind, h1, h2, evalBinOp, he]

/-- Witness for C10: `clock == clock` on the same native function. -/
theorem callable_equality_always_false_witness :
    isEqual (.callable (.other .clock)) (.callable (.other .clock)) = false ∧
    evaluate 2 initState
        (.mk (.binary .eqEq (.mk (.literal (.callable (.other .clock))))
          (.mk (.literal (.callable (.other .clock)))))) =
      (.ok (.bool false), initState) ∧
    evaluate 2 initState
        (.mk (.binary .ne (.mk (.literal (.callable (.other .clock))))
          (.mk (.literal (.callable (.other .clock)))))) =
      (.ok (.bool true), initState) :=
  callable_equality_always_false 1 initState initState initState
    (.mk (.literal (.callable (.other .clock))))
    (.mk (.literal (.callable (.other .clock))))
    (.callable (.other .clock)) (.callable (.other .clock))
    rfl rfl (Or.inl rfl)

/-- C1 (amended): for every `Print` statement whose expression evaluates
to a string value `s`, the interpreter prints the characters of `s`
*surrounded by double-quote characters*, followed by a newline — the
`String` arm of `impl Display for Literal` formats with `"\"{}\""`, so
the raw-characters form of the original claim does not hold. -/
theorem print_string_appends_quoted_line (f : Nat) (st st1 : EState) (e : Expr)
    (s : String) (h : evaluate f st e = (.ok (.string s), st1)) :
    execute (f + 1) st (.print e) =
      (.ok (), { st1 with output := st1.output ++ ("\"" ++ s ++ "\"") ++ "\n" }) := by
  simp [execute, h, Literal.display]

/-- Witness for the amended C1 at `print "hi";`. -/
theorem print_string_appends_quoted_line_witness :
    execute 2 initState (.print (.mk (.literal (.string "hi")))) =
      (.ok (), { initState with output := initState.output ++ ("\"" ++ "hi" ++ "\"") ++ "\n" }) :=
  print_string_appends_quoted_line 1 initState initState
    (.mk (.literal (.string "hi"))) "hi" rfl

/-- Counterexample to C1 as stated: `print "hi";` writes `"hi"` (quotes
included) and a newline, not the raw characters `hi` and a newline. -/
theorem print_string_not_raw_at_hi :
    (execute 2 initState (.print (.mk (.literal (.string "hi"))))).2.output = "\"hi\"\n" ∧
    ("\"hi\"\n" : String) ≠ "hi\n" :=
  ⟨rfl, by decide⟩

/-- C6: on a `Call` expression, a non-callable callee fails with
`Can only call functions and classes`; a callable callee whose arity
differs from the argument count fails with
`Expected N arguments but got M.`; otherwise the arguments are evaluated
left to right (`evalArgs` folds the source's left-to-right loop) and the
callable is invoked. -/
theorem call_checks_callable_and_arity (f : Nat) (st st1 : EState) (callee : Expr)
    (args : List Expr) (v : Literal) (h : evaluate f st callee = (.ok v, st1)) :
    (isCallableLit v = false →
      evaluate (f + 1) st (.mk (.call callee args)) =
        (.err (.general "Can only call functions and classes"), st1)) ∧
    (∀ c, v = .callable c → args.length ≠ c.arity →
      evaluate (f + 1) st (.mk (.call callee args)) =
        (.err (.general ("Expected " ++ toString c.arity ++ " arguments but got " ++
          toString args.length ++ ".")), st1)) ∧
    (∀ c vs st2, v = .callable c → args.length = c.arity →
      evalArgs f st1 args = (.ok vs, st2) →
      evaluate (f + 1) st (.mk (.call callee args)) = callCallable f st2 c vs) := by
  refine ⟨fun hnc => ?_, fun c hv hne => ?_, fun c vs st2 hv heq harg => ?_⟩
  · cases v <;> simp [isCallableLit] at hnc <;> simp [evaluate, Expr.kind, h]
  · subst hv
    simp only [evaluate, Expr.kind, h]
    rw [if_pos hne]
  · subst hv
    simp [evaluate, Expr.kind, h, heq, harg]

/-- Witness for C6: a number callee, `clock` with one argument, and
`clock` with no arguments. -/
theorem call_checks_callable_and_arity_witness :
    evaluate 2 initState (.mk (.call (.mk (.literal (.number 1))) [])) =
      (.err (.general "Can only call functions and classes"), initState) ∧
    evaluate 2 initState
        (.mk (.call (.mk (.literal (.callable (.other .clock))))
          [.mk (.literal (.number 1))])) =
      (.err (.general "Expected 0 arguments but got 1."), initState) ∧
    evaluate 2 initState (.mk (.call (.mk (.literal (.callable (.other .clock)))) [])) =
      callCallable 1 initState (.other .clock) [] := by
  refine ⟨?_, ?_, ?_⟩
  · exact
      (call_checks_callable_and_arity 1 initState initState
        (.mk (.literal (.number 1))) [] (.number 1) rfl).1 rfl
  · simpa using
      (call_checks_callable_and_arity 1 initState initState
        (.mk (.literal (.callable (.other .clock)))) [.mk (.literal (.number 1))]
        (.callable (.other .clock)) rfl).2.1 (.other .clock) rfl (by decide)
  · exact
      (call_checks_callable_and_arity 1 initState initState
        (.mk (.literal (.callable (.other .clock)))) [] (.callable (.other .clock))
        rfl).2.2 (.other .clock) [] initState rfl rfl rfl

/-- C9: when the `Return` control signal reaches the top-level statement
loop of `Runner::run`, it is silently discarded (the `_ => ()` arm): the
run continues with the remaining statements from the state the signal
left behind, no error report is produced, and an exhausted statement
list returns `Ok`. -/
theorem toplevel_return_discarded (fuel : Nat) (st st1 : EState) (s : Stmt)
    (rest : List Stmt) (v : Option Literal)
    (h : execute fuel st s = (.err (.ret v), st1)) :
    runStmts fuel st (s :: rest) = runStmts fuel st1 rest ∧
    runStmts fuel st1 ([] : List Stmt) = (.ok, st1) := by
  constructor
  · simp [runStmts, h]
  · rfl

/-- Witness for C9: a bare `return;` at top level followed by a `print`. -/
theorem toplevel_return_discarded_witness :
    runStmts 1 initState
        (Stmt.sReturn ⟨.kReturn, 6, "return"⟩ none :: [Stmt.print (.mk (.literal .nil))]) =
      runStmts 1 initState [Stmt.print (.mk (.literal .nil))] ∧
    runStmts 1 initState ([] : List Stmt) = (.ok, initState) :=
  toplevel_return_discarded 1 initState initState
    (Stmt.sReturn ⟨.kReturn, 6, "return"⟩ none) [Stmt.print (.mk (.literal .nil))] none rfl

/-- An unclosed `string` scan consumes everything and reports an `Eof`
kind with an empty lexeme. -/
theorem stringLoop_no_close : ∀ (l : List Char) (acc : List Char), '"' ∉ l →
    stringLoop acc l = ((.eof, ""), []) := by
  intro l
  induction l with
  | nil => intro acc _; rfl
  | cons c rest ih =>
      intro acc h
      have hc : ¬(c = '"') := fun he => h (he ▸ List.mem_cons_self c rest)
      rw [stringLoop, if_neg hc]
      exact ih _ (fun hm => h (List.mem_cons_of_mem _ hm))

/-- A closed `string` scan yields the interior as value and the interior
re-wrapped in quotes as lexeme, leaving the characters after the closing
quote. -/
theorem stringLoop_close : ∀ (pre : List Char) (acc post : List Char), '"' ∉ pre →
    stringLoop acc (pre ++ '"' :: post) =
      ((.string (acc ++ pre).asString, "\"" ++ (acc ++ pre).asString ++ "\""), post) := by
  intro pre
  induction pre with
  | nil => intro acc post _; simp [stringLoop]
  | cons c pre' ih =>
      intro acc post h
      have hc : ¬(c = '"') := fun he => h (he ▸ List.mem_cons_self c pre')
      rw [List.cons_append, stringLoop, if_neg hc,
        ih (acc ++ [c]) post (fun hm => h (List.mem_cons_of_mem _ hm))]
      simp

/-- The `advance_token` on a cursor at an opening quote dispatches to
`Cursor::string` and packages its result as the next token. -/
theorem advanceToken_quote (f n : Nat) (l : List Char) :
    advanceToken (f + 1) ⟨n, '"' :: l⟩ =
      some ({ value := (stringLoop [] l).1.1,
              length := n - (stringLoop [] l).2.length,
              lexeme := (stringLoop [] l).1.2 },
            ⟨n, (stringLoop [] l).2⟩) := by
  rcases hs : stringLoop [] l with ⟨⟨k, lex⟩, rest⟩
  simp [advanceToken, Cursor.bump, Cursor.string, Cursor.first, Cursor.lenConsumed, hs]

/-- C7: a string literal opened by `"` that reaches the end of the input
before a closing `"` makes the lexer yield an `Eof`-kind token for that
literal (there is no error path: the scan's return type carries no
`LexingError`, and no `STRING` token is produced); a properly closed
literal yields `STRING` whose value is the interior characters and whose
lexeme carries both surrounding quotes. -/
theorem unterminated_string_yields_eof_token (n f : Nat) (rest pre post : List Char) :
    ('"' ∉ rest →
      advanceToken (f + 1) ⟨n, '"' :: rest⟩ =
        some ({ value := .eof, length := n, lexeme := "" }, ⟨n, []⟩)) ∧
    ('"' ∉ pre →
      advanceToken (f + 1) ⟨n, '"' :: (pre ++ '"' :: post)⟩ =
        some ({ value := .string pre.asString, length := n - post.length,
                lexeme := "\"" ++ pre.asString ++ "\"" }, ⟨n, post⟩)) := by
  constructor
  · intro h
    rw [advanceToken_quote, stringLoop_no_close rest [] h]
    simp
  · intro h
    rw [advanceToken_quote, stringLoop_close pre [] post h]
    simp

/-- Witness for C7: the unterminated `"hi` and the closed `"hi"`. -/
theorem unterminated_string_yields_eof_token_witness :
    advanceToken 1 ⟨3, ['"', 'h', 'i']⟩ =
      some ({ value := .eof, length := 3, lexeme := "" }, ⟨3, []⟩) ∧
    advanceToken 1 ⟨4, ['"', 'h', 'i', '"']⟩ =
      some ({ value := .string "hi", length := 4, lexeme := "\"hi\"" }, ⟨4, []⟩) := by
  constructor
  · exact (unterminated_string_yields_eof_token 3 0 ['h', 'i'] [] []).1 (by decide)
  · simpa using (unterminated_string_yields_eof_token 4 0 [] ['h', 'i'] []).2 (by decide)

/-- C8 (code evaluated at the failing input): when the token after
`while`, `for` or `if` is not `(`, the parser's diagnostic names `'if'`
in all three cases — `while_statement` and `for_statement` reuse the
`if` message instead of naming their own keyword. -/
theorem while_for_paren_error_names_if :
    whileStatement 1 [⟨.semicolon, 1, ";"⟩] =
      some (.error (.generalError "Expect '(' after 'if'"), [⟨.semicolon, 1, ";"⟩]) ∧
    forStatement 1 [⟨.semicolon, 1, ";"⟩] =
      some (.error (.generalError "Expect '(' after 'if'"), [⟨.semicolon, 1, ";"⟩]) ∧
    ifStatement 1 [⟨.semicolon, 1, ";"⟩] =
      some (.error (.generalError "Expect '(' after 'if'"), [⟨.semicolon, 1, ";"⟩]) :=
  ⟨rfl, rfl, rfl⟩

/-- C2: on every fuel and every token stream, `for_statement` computes
exactly the same function as "parse `( init ; cond ; incr ) body` per
the grammar, then return `forDesugar init cond incr body`" — the
specification's desugaring applied to the clauses that were actually
parsed.  So the body is wrapped as `Block([body, Expression(incr)])`
exactly when an increment was parsed, `Literal(true)` is substituted
exactly when the condition slot was empty, the `While` is wrapped as
`Block([init, while])` exactly when an initializer was parsed, and no
other result shape can arise (`Stmt` has no `For` constructor); on the
worked example `for (var i=0; i<3; i=i+1) print i;` the parse is the
exact `Block([init, While(cond, Block([body, Expression(incr)]))])`. -/
theorem forStatement_yields_desugared_shape :
    (∀ f ts, forStatement f ts = forStatementSpec f ts) ∧
    forStatement 30 forToksExample = some (.ok forASTExample, []) := by
  constructor
  · intro f ts
    cases f with
    | zero => rfl
    | succ f =>
        simp only [forStatement, forStatementSpec, pbind]
        repeat' split
        all_goals rfl
  · rfl

end Rlox
